import Mathlib

/-!
Verification of the quality-controlled article-generation loop of the
jeno backend (FastAPI service under backend/), against its natural-language
specification.  The Python source is shallowly embedded: pure helpers become
Lean functions, the orchestration loop becomes a structurally recursive
function over explicit collaborator behaviours (the LLM generation backends,
the quality scorer and the Thai translator are modelled as arbitrary
functions of the 1-based call index and the arguments the source passes),
raised Python exceptions become `Except.error` values, Python dict lookups
with defaults become `Option.getD`, and Python float scores are modelled as
rationals.  Every definition is translated from the source files named in
its doc comment.
-/

namespace Jeno

/-! ## Configuration constants, from backend/config/settings.py -/

/-- Settings.MAX_QUALITY_ITERATIONS (settings.py line 12). -/
def MAX_QUALITY_ITERATIONS : Nat := 3

/-- Settings.QUALITY_THRESHOLD (settings.py line 13); the Python float 0.85
is modelled as the rational 85/100. -/
def QUALITY_THRESHOLD : ℚ := mkRat 85 100

/-! ## Pydantic data model, from backend/models/schemas.py -/

/-- schemas.py class UrlContentInstruction. -/
structure UrlContentInstruction where
  url : String
  content_focus : Option String
  usage_instruction : Option String
  section_target : Option String
  extraction_type : Option String
deriving DecidableEq

/-- schemas.py class QualityFeedback; the float score is a rational. -/
structure QualityFeedback where
  score : ℚ
  feedback : String
  suggestions : List String
deriving DecidableEq

/-- schemas.py class ImageSlot. -/
structure ImageSlot where
  id : String
  description : String
  position : String
  suggested_type : String
  placement_rationale : Option String
  content_guidance : Option String
  dimensions : Option String
  aspect_ratio : Option String
  alternatives : Option String
deriving DecidableEq

/-- schemas.py class ArticleLayout. -/
structure ArticleLayout where
  sections : List String
  image_slots : List ImageSlot
deriving DecidableEq

/-- schemas.py class ArticleAnalysis. -/
structure ArticleAnalysis where
  strengths : List String
  weaknesses : List String
  recommendations : List String
  summary : String
deriving DecidableEq

/-- One element of a source_usage_details list: a Python Dict[str, str]
is modelled as an association list. -/
abbrev SourceUsageRecord := List (String × String)

/-- schemas.py class GenerationContext. -/
structure GenerationContext where
  topic_category : Option String
  industry : Option String
  target_audience : Option String
  scraped_content : Option String
  scraped_sources : Option (List SourceUsageRecord)
  url_instructions : Option (List UrlContentInstruction)
  pdf_content : Option String
  seo_keywords : List String
  custom_prompt : Option String
deriving DecidableEq

/-- schemas.py class ArticleRequest (lines 12-22).  Note: the class declares
no selected_model field, although api/endpoints/article.py reads
request.selected_model. -/
structure ArticleRequest where
  topic_category : Option String
  industry : Option String
  target_audience : Option String
  source_url : Option String
  source_urls : Option (List String)
  url_instructions : Option (List UrlContentInstruction)
  pdf_base64 : Option String
  seo_keywords : Option String
  custom_prompt : Option String
  include_thai_translation : Option Bool
deriving DecidableEq

/-! ## Raw (untyped-dict) payloads exchanged with the model backends.
A Python dict read with dict.get is modelled as a structure of Option
fields: a missing key is `none`, and `Option.getD` is dict.get with a
default. -/

/-- One raw image-slot dict inside a model reply's layout. -/
structure ImageSlotData where
  id : Option String
  description : Option String
  position : Option String
  suggested_type : Option String
  placement_rationale : Option String
  content_guidance : Option String
  dimensions : Option String
  aspect_ratio : Option String
  alternatives : Option String
deriving DecidableEq

/-- The raw layout dict inside a model reply. -/
structure LayoutData where
  sections : Option (List String)
  image_slots : Option (List ImageSlotData)
deriving DecidableEq

/-- The empty Python dict used as default for a missing layout. -/
def emptyLayoutData : LayoutData := ⟨none, none⟩

/-- The raw dict produced by a generation-backend call, carrying exactly the
keys _generate_with_quality_loop reads (article.py lines 234-238, 264,
276, 312, 322): markdown_content, html_content, content, layout and
source_usage_details. -/
structure ArticleResult where
  markdown_content : Option String
  html_content : Option String
  content : Option String
  layout : Option LayoutData
  source_usage_details : Option (List SourceUsageRecord)
deriving DecidableEq

/-- The dict returned by TranslationService.translate_to_thai, with the keys
the loop reads (article.py lines 282-284, 325-327). -/
structure ThaiResult where
  markdown_content : String
  layout : LayoutData
  source_usage_details : List SourceUsageRecord
  translation_success : Option Bool
deriving DecidableEq

/-- The dict returned by an analyze_article call, read with dict.get at
article.py lines 122-127. -/
structure AnalysisData where
  strengths : Option (List String)
  weaknesses : Option (List String)
  recommendations : Option (List String)
  summary : Option String
deriving DecidableEq

/-- A scorer reply that parsed as a JSON object, carrying the keys
QualityCheckerService.evaluate_article_quality reads with dict.get
(quality_checker.py lines 32-36). -/
structure QualityReplyObj where
  score : Option ℚ
  feedback : Option String
  suggestions : Option (List String)
deriving DecidableEq

/-- A Gemini reply that parsed as a JSON object, carrying the keys
LLMServiceGemini.generate_article reads (llm_service_gemini.py
lines 62-75). -/
structure GeminiParsed where
  content : Option String
  layout : Option LayoutData
  source_usage_details : Option (List SourceUsageRecord)
deriving DecidableEq

/-! ## backend/utils/helpers.py, parse_seo_keywords.
Python strings are modelled as lists of characters here so that the
splitting and stripping can be reasoned about directly. -/

/-- The whitespace characters removed by Python str.strip. -/
def isPySpace (c : Char) : Bool :=
  c = ' ' || c = '\t' || c = '\n' || c = '\r' || c = '\x0b' || c = '\x0c'

/-- Remove leading Python whitespace (the left half of str.strip). -/
def pyLStrip : List Char → List Char
  | [] => []
  | c :: s => if isPySpace c then pyLStrip s else c :: s

/-- Remove trailing Python whitespace (the right half of str.strip). -/
def pyRStrip (s : List Char) : List Char :=
  (pyLStrip s.reverse).reverse

/-- Python str.strip: remove leading and trailing whitespace.  The two ends
are stripped independently, so the composition order is immaterial. -/
def pyStrip (s : List Char) : List Char :=
  pyRStrip (pyLStrip s)

/-- Python str.split with a single-character separator: `"".split(sep)`
is `[""]`, and every occurrence of the separator starts a new piece. -/
def pySplit (sep : Char) : List Char → List (List Char)
  | [] => [[]]
  | c :: cs =>
    if c = sep then [] :: pySplit sep cs
    else
      match pySplit sep cs with
      | [] => [[c]]
      | t :: ts => (c :: t) :: ts

/-- Python `", ".join(items)`. -/
def pyJoinCommaSpace : List (List Char) → List Char
  | [] => []
  | [k] => k
  | k :: rest => k ++ ',' :: ' ' :: pyJoinCommaSpace rest

/-- helpers.py parse_seo_keywords (lines 4-10): `None` or the empty string
yield `[]` (Python falsiness); otherwise split on commas, strip each piece,
and keep the non-empty pieces, in order. -/
def parse_seo_keywords : Option (List Char) → List (List Char)
  | none => []
  | some s =>
    if s = [] then []
    else ((pySplit ',' s).map pyStrip).filter (fun kw => decide (kw ≠ []))

/-! ## backend/api/endpoints/article.py: layout parsing and content
extraction -/

/-- article.py _parse_layout (lines 339-363): missing keys default, and each
slot dict is turned into an ImageSlot with per-field defaults; a missing id
defaults to img_ followed by the number of slots built so far. -/
def parse_layout (layout_data : LayoutData) : ArticleLayout :=
  let sections := layout_data.sections.getD []
  let image_slots := (layout_data.image_slots.getD []).foldl
    (fun acc slot =>
      match slot with
      | ⟨i?, de?, po?, ty?, pr?, cg?, di?, ar?, al?⟩ =>
        acc ++ [⟨i?.getD ("img_" ++ toString acc.length), de?.getD "Image placeholder",
                 po?.getD "article", ty?.getD "photo", pr?, cg?, di?, ar?, al?⟩]) []
  ⟨sections, image_slots⟩

/-- article.py lines 234-237: extract the draft content from the raw
generation result.  Python `a or b` on strings returns `a` unless it is
empty.  For the gemini-pro backend the keys read are html_content and
content; otherwise markdown_content and content. -/
def extractContent (selected_model : String) (article_result : ArticleResult) : String :=
  if selected_model = "gemini-pro" then
    let a := article_result.html_content.getD ""
    if a = "" then article_result.content.getD "" else a
  else
    let a := article_result.markdown_content.getD ""
    if a = "" then article_result.content.getD "" else a

/-- Python `f"\x7bscore:.2f\x7d"` for a rational score: the value rounded to
two decimal places, printed with exactly two fractional digits.  (CPython
rounds the underlying binary float half-to-even; this model rounds half-up.
Every property proved here treats the formatted string opaquely, so the tie
behaviour is never relied on.) -/
def formatScore2 (q : ℚ) : String :=
  let c : Int := Int.fdiv (200 * q.num + q.den) (2 * q.den)
  let a : Nat := c.natAbs
  (if c < 0 then "-" else "") ++ toString (a / 100) ++ "." ++
    (if a % 100 < 10 then "0" else "") ++ toString (a % 100)

/-- article.py line 304: the feedback string synthesized for the next
iteration after a below-threshold score. -/
def mkFeedback (qf : QualityFeedback) : String :=
  "Quality score: " ++ formatScore2 qf.score ++ ". " ++ qf.feedback ++
    " Suggestions: " ++ String.intercalate "; " qf.suggestions

/-- The quality_context dict built at article.py lines 244-249. -/
structure QualityContext where
  topic_category : Option String
  industry : Option String
  target_audience : Option String
  seo_keywords : Option String
deriving DecidableEq

/-- article.py lines 244-249: seo_keywords joins with ", " when the list is
non-empty and is None otherwise. -/
def buildQualityContext (context : GenerationContext) : QualityContext :=
  ⟨context.topic_category, context.industry, context.target_audience,
    if context.seo_keywords = [] then none
    else some (String.intercalate ", " context.seo_keywords)⟩

/-! ## Collaborator behaviours.
Each outward call the orchestrator makes is modelled as a function of the
1-based index of the call (capturing arbitrary stateful stubs, which can
only distinguish calls by their order) and of the arguments the source
passes; a raised exception is an `Except.error` carrying str(e). -/

/-- The service collaborators of article.py (module-level instances,
lines 22-30), as arbitrary behaviours. -/
structure Collaborators where
  genOpenai : Nat → GenerationContext → Option String → Except String ArticleResult
  genGemini : Nat → GenerationContext → Option String → Except String ArticleResult
  evalQuality : Nat → String → QualityContext → Except String QualityFeedback
  translateToThai : String → LayoutData → List SourceUsageRecord → Except String ThaiResult
  analyzeArticle : String → GenerationContext → Except String AnalysisData

/-- article.py lines 226-229: dispatch one generation call to the backend
selected by the selected_model string. -/
def genCall (C : Collaborators) (selected_model : String) (iteration : Nat)
    (context : GenerationContext) (feedback : Option String) :
    Except String ArticleResult :=
  if selected_model = "gemini-pro" then C.genGemini iteration context feedback
  else C.genOpenai iteration context feedback

instance {ε α : Type} [DecidableEq ε] [DecidableEq α] : DecidableEq (Except ε α) := fun x y =>
  match x, y with
  | .error a, .error b =>
    if h : a = b then .isTrue (by rw [h]) else .isFalse (by intro hc; cases hc; exact h rfl)
  | .ok a, .ok b =>
    if h : a = b then .isTrue (by rw [h]) else .isFalse (by intro hc; cases hc; exact h rfl)
  | .error _, .ok _ => .isFalse (by intro hc; cases hc)
  | .ok _, .error _ => .isFalse (by intro hc; cases hc)

/-- An HTTPException(status_code, detail). -/
structure HTTPError where
  status : Nat
  detail : String
deriving DecidableEq

/-- The result dict built by _generate_with_quality_loop (article.py
lines 259-265 and 307-313); the optional thai keys added at lines 283-284
and 326-327 are Option fields. -/
structure LoopResult where
  content : String
  layout : ArticleLayout
  quality_score : ℚ
  iterations : Nat
  source_usage_details : List SourceUsageRecord
  thai_content : Option String
  thai_layout : Option ArticleLayout
deriving DecidableEq

/-- Record of one loop iteration, kept for the statements of the verified
properties: the feedback argument passed into that iteration's generation
call, the generation call's outcome, and the scoring call's outcome
(`none` when no scoring call was made in that iteration). -/
structure AttemptRecord where
  feedback_in : Option String
  gen_result : Except String ArticleResult
  score_result : Option (Except String QualityFeedback)
deriving DecidableEq

/-- Outcome of one run of _generate_with_quality_loop: the returned value or
raised HTTPException, plus the per-iteration trace of collaborator calls.
The trace is pure instrumentation; it never influences control flow. -/
structure RunOutcome where
  result : Except HTTPError LoopResult
  attempts : List AttemptRecord
deriving DecidableEq

/-- Number of scoring calls a run made: one per iteration that reached the
quality evaluation. -/
def scoreCallCount (o : RunOutcome) : Nat :=
  (o.attempts.filter (fun a => a.score_result.isSome)).length

/-- The five-key result dict of article.py lines 259-265 / 307-313, before
any thai keys are added. -/
def basePackage (content : String) (layout_data : LayoutData)
    (qf : QualityFeedback) (iteration : Nat)
    (sud : List SourceUsageRecord) : LoopResult :=
  ⟨content, parse_layout layout_data, qf.score, iteration, sud, none, none⟩

/-- article.py lines 267-292 and 315-335 (two textually identical blocks):
when Thai translation is requested, call the translator inside try/except;
a raised exception or translation_success false leaves the result dict
unchanged, and success adds thai_content and thai_layout. -/
def addThai (C : Collaborators) (include_thai : Bool) (res : LoopResult)
    (content : String) (layout_data : LayoutData)
    (sud : List SourceUsageRecord) : LoopResult :=
  if include_thai then
    match C.translateToThai content layout_data sud with
    | .error _ => res
    | .ok thai_result =>
      if thai_result.translation_success.getD false then
        { res with thai_content := some thai_result.markdown_content,
                   thai_layout := some (parse_layout thai_result.layout) }
      else res
  else res

/-- The body of the while loop of _generate_with_quality_loop (article.py
lines 220-337).  `iteration` is the 1-based index of the current cycle
(the Python variable after its increment at line 221) and `remaining` is
the number of further cycles the guard `iteration < MAX_QUALITY_ITERATIONS`
still permits, i.e. MAX_QUALITY_ITERATIONS - iteration; the loop is entered
with iteration = 1 because MAX_QUALITY_ITERATIONS = 3 > 0.  Each cycle:
one generation call (a raised error becomes HTTP 500 "Error in article
generation: ..."), content extraction (empty content raises HTTP 500
"Generated article has no content" before any scoring call), one scoring
call (a raised error becomes HTTP 500 "Error in quality evaluation: ..."),
then either acceptance at threshold, another cycle with synthesized
feedback, or exhaustion returning the last attempt. -/
def quality_loop_go (C : Collaborators) (context : GenerationContext)
    (include_thai : Bool) (selected_model : String) :
    Nat → Nat → Option String → RunOutcome
  | remaining, iteration, feedback =>
    match genCall C selected_model iteration context feedback with
    | .error e =>
      ⟨.error ⟨500, "Error in article generation: " ++ e⟩,
       [⟨feedback, .error e, none⟩]⟩
    | .ok article_result =>
      let content := extractContent selected_model article_result
      let layout_data := article_result.layout.getD emptyLayoutData
      if content = "" then
        ⟨.error ⟨500, "Generated article has no content"⟩,
         [⟨feedback, .ok article_result, none⟩]⟩
      else
        match C.evalQuality iteration content (buildQualityContext context) with
        | .error e =>
          ⟨.error ⟨500, "Error in quality evaluation: " ++ e⟩,
           [⟨feedback, .ok article_result, some (.error e)⟩]⟩
        | .ok quality_feedback =>
          if quality_feedback.score ≥ QUALITY_THRESHOLD then
            ⟨.ok (addThai C include_thai
                    (basePackage content layout_data quality_feedback iteration
                      (article_result.source_usage_details.getD []))
                    content layout_data
                    (article_result.source_usage_details.getD [])),
             [⟨feedback, .ok article_result, some (.ok quality_feedback)⟩]⟩
          else
            match remaining with
            | r + 1 =>
              let next := quality_loop_go C context include_thai selected_model
                r (iteration + 1) (some (mkFeedback quality_feedback))
              ⟨next.result,
               ⟨feedback, .ok article_result, some (.ok quality_feedback)⟩ :: next.attempts⟩
            | 0 =>
              ⟨.ok (addThai C include_thai
                      (basePackage content layout_data quality_feedback iteration
                        (article_result.source_usage_details.getD []))
                      content layout_data
                      (article_result.source_usage_details.getD [])),
               [⟨feedback, .ok article_result, some (.ok quality_feedback)⟩]⟩
termination_by structural remaining _ _ => remaining

/-- article.py _generate_with_quality_loop (lines 214-337): iteration starts
at 0 and feedback at None; the first cycle runs with iteration = 1 and
MAX_QUALITY_ITERATIONS - 1 further cycles permitted. -/
def generate_with_quality_loop (C : Collaborators) (context : GenerationContext)
    (include_thai : Bool) (selected_model : String) : RunOutcome :=
  quality_loop_go C context include_thai selected_model
    (MAX_QUALITY_ITERATIONS - 1) 1 none

/-! ## backend/services/llm_service_gemini.py -/

/-- LLMServiceGemini.generate_article (lines 22-94), as a function of the
provider's reply: `replyText` is response.text and `parsed` is the result of
attempting json.loads on it (`none` when the reply is not valid JSON).
An empty reply raises; a JSON reply must carry a non-empty content field,
which is returned under the markdown_content key; a non-JSON reply is
returned whole under markdown_content with an empty layout (the deliberate
fallback at lines 80-87).  Inner raises are wrapped by the outer except
clause at line 94. -/
def LLMServiceGemini.generate_article (replyText : String)
    (parsed : Option GeminiParsed) : Except String ArticleResult :=
  if replyText = "" then
    .error "Error generating article with Gemini: Gemini returned empty response"
  else
    match parsed with
    | some result =>
      match result.content with
      | some c =>
        if c = "" then
          .error "Error generating article with Gemini: AI response missing content field"
        else
          .ok ⟨some c, none, none, some (result.layout.getD emptyLayoutData),
               some (result.source_usage_details.getD [])⟩
      | none =>
        .error "Error generating article with Gemini: AI response missing content field"
    | none =>
      .ok ⟨some replyText, none, none, some ⟨some [], some []⟩, some []⟩

/-! ## backend/services/quality_checker.py -/

/-- QualityCheckerService.evaluate_article_quality (lines 11-39), as a
function of the scorer backend's reply: `.ok obj` is a reply that parsed as
a JSON object, `.error e` is any raised failure of the call or of
json.loads, re-raised with the wrapping message of line 39.  Missing keys
default via dict.get: score to 0.0, feedback to the empty string,
suggestions to the empty list. -/
def QualityCheckerService.evaluate_article_quality
    (reply : Except String QualityReplyObj) : Except String QualityFeedback :=
  match reply with
  | .ok result =>
    .ok ⟨result.score.getD 0, result.feedback.getD "", result.suggestions.getD []⟩
  | .error e => .error ("Error evaluating article quality: " ++ e)

/-! ## The /generate-article endpoint, article.py lines 92-144 -/

/-- The ArticleResponse model (schemas.py lines 45-53), restricted to the
fields this development reasons about. -/
structure ArticleResponse where
  content : String
  layout : ArticleLayout
  quality_score : ℚ
  iterations : Nat
  source_usage_details : List SourceUsageRecord
  analysis : Option ArticleAnalysis
  thai_content : Option String
  thai_layout : Option ArticleLayout
deriving DecidableEq

/-- article.py lines 116-133: run the analysis call inside try/except; a
raised failure degrades to analysis None, success fills the four fields
with dict.get defaults.  All other response fields are copied from the
loop's result dict unchanged. -/
def attachAnalysis (analysis_result : Except String AnalysisData)
    (article_data : LoopResult) : ArticleResponse :=
  match analysis_result with
  | .ok a =>
    ⟨article_data.content, article_data.layout, article_data.quality_score,
     article_data.iterations, article_data.source_usage_details,
     some ⟨a.strengths.getD [], a.weaknesses.getD [], a.recommendations.getD [],
           a.summary.getD ""⟩,
     article_data.thai_content, article_data.thai_layout⟩
  | .error _ =>
    ⟨article_data.content, article_data.layout, article_data.quality_score,
     article_data.iterations, article_data.source_usage_details, none,
     article_data.thai_content, article_data.thai_layout⟩

/-- Python attribute access request.selected_model (article.py lines 112,
113 and 120).  The ArticleRequest model (schemas.py lines 12-22) declares
no selected_model field and pydantic discards undeclared body keys, so
CPython raises AttributeError here for every request; the access is
modelled as that error value. -/
def ArticleRequest.getattr_selected_model (_ : ArticleRequest) :
    Except String String :=
  .error "'ArticleRequest' object has no attribute 'selected_model'"

/-- The generate_article endpoint (article.py lines 92-144), parameterized
by the outcome of _build_generation_context (whose scraping and PDF
collaborators are outside the loop's scope).  A raised HTTPException is
re-raised (line 136-138); any other exception is wrapped into HTTP 500
"Error generating article: ..." (lines 139-144).  The first read of
request.selected_model happens at line 112, before the loop is entered;
the analysis step at lines 116-133 reads it again, inside its own
try/except.  The backend actually used for the analysis call is absorbed
into the analyzeArticle collaborator. -/
def generate_article_endpoint (C : Collaborators) (request : ArticleRequest)
    (buildCtx : Except HTTPError GenerationContext) :
    Except HTTPError ArticleResponse :=
  match buildCtx with
  | .error e => .error e
  | .ok context =>
    match request.getattr_selected_model with
    | .error msg => .error ⟨500, "Error generating article: " ++ msg⟩
    | .ok selected_model =>
      match (generate_with_quality_loop C context
              (request.include_thai_translation.getD false) selected_model).result with
      | .error e => .error e
      | .ok article_data =>
        match request.getattr_selected_model with
        | .error _ => .ok (attachAnalysis (.error "AttributeError") article_data)
        | .ok _ =>
          .ok (attachAnalysis (C.analyzeArticle article_data.content context)
                article_data)

/-! ## Helper lemmas about the loop -/

theorem addThai_content (C : Collaborators) (b : Bool) (res : LoopResult)
    (c : String) (l : LayoutData) (s : List SourceUsageRecord) :
    (addThai C b res c l s).content = res.content := by
  unfold addThai
  split
  · split
    · rfl
    · split <;> rfl
  · rfl

theorem addThai_layout (C : Collaborators) (b : Bool) (res : LoopResult)
    (c : String) (l : LayoutData) (s : List SourceUsageRecord) :
    (addThai C b res c l s).layout = res.layout := by
  unfold addThai
  split
  · split
    · rfl
    · split <;> rfl
  · rfl

theorem addThai_quality_score (C : Collaborators) (b : Bool) (res : LoopResult)
    (c : String) (l : LayoutData) (s : List SourceUsageRecord) :
    (addThai C b res c l s).quality_score = res.quality_score := by
  unfold addThai
  split
  · split
    · rfl
    · split <;> rfl
  · rfl

theorem addThai_iterations (C : Collaborators) (b : Bool) (res : LoopResult)
    (c : String) (l : LayoutData) (s : List SourceUsageRecord) :
    (addThai C b res c l s).iterations = res.iterations := by
  unfold addThai
  split
  · split
    · rfl
    · split <;> rfl
  · rfl

theorem addThai_source_usage_details (C : Collaborators) (b : Bool) (res : LoopResult)
    (c : String) (l : LayoutData) (s : List SourceUsageRecord) :
    (addThai C b res c l s).source_usage_details = res.source_usage_details := by
  unfold addThai
  split
  · split
    · rfl
    · split <;> rfl
  · rfl

section LoopLemmas

variable (C : Collaborators) (context : GenerationContext)
  (include_thai : Bool) (selected_model : String)

/-- Every run makes at most remaining + 1 loop iterations. -/
theorem go_attempts_length : ∀ remaining iteration feedback,
    (quality_loop_go C context include_thai selected_model
      remaining iteration feedback).attempts.length ≤ remaining + 1 := by
  intro remaining
  induction remaining with
  | zero =>
    intro iteration feedback
    unfold quality_loop_go
    cases hg : genCall C selected_model iteration context feedback with
    | error e => simp
    | ok ar =>
      simp only
      by_cases hc : extractContent selected_model ar = ""
      · simp [hc]
      · simp only [hc, if_neg, if_false]
        cases hs : C.evalQuality iteration (extractContent selected_model ar)
            (buildQualityContext context) with
        | error e => simp [hc]
        | ok qf =>
          by_cases hq : qf.score ≥ QUALITY_THRESHOLD <;> simp [hc, hq]
  | succ r ih =>
    intro iteration feedback
    unfold quality_loop_go
    cases hg : genCall C selected_model iteration context feedback with
    | error e => simp
    | ok ar =>
      simp only
      by_cases hc : extractContent selected_model ar = ""
      · simp [hc]
      · simp only [hc, if_neg, if_false]
        cases hs : C.evalQuality iteration (extractContent selected_model ar)
            (buildQualityContext context) with
        | error e => simp [hc]
        | ok qf =>
          by_cases hq : qf.score ≥ QUALITY_THRESHOLD
          · simp [hc, hq]
          · simp only [hc, hq, if_neg, if_false, if_true]
            have := ih (iteration + 1) (some (mkFeedback qf))
            simp [hc, hq]
            omega

/-- The iterations field of a returned result never exceeds
iteration + remaining. -/
theorem go_result_iterations : ∀ remaining iteration feedback r,
    (quality_loop_go C context include_thai selected_model
      remaining iteration feedback).result = .ok r →
    r.iterations ≤ iteration + remaining := by
  intro remaining
  induction remaining with
  | zero =>
    intro iteration feedback r hr
    unfold quality_loop_go at hr
    cases hg : genCall C selected_model iteration context feedback with
    | error e => simp [hg] at hr
    | ok ar =>
      simp only [hg] at hr
      by_cases hc : extractContent selected_model ar = ""
      · simp [hc] at hr
      · simp only [hc, if_neg, if_false] at hr
        cases hs : C.evalQuality iteration (extractContent selected_model ar)
            (buildQualityContext context) with
        | error e => simp [hc, hs] at hr
        | ok qf =>
          by_cases hq : qf.score ≥ QUALITY_THRESHOLD
          · simp [hc, hs, hq] at hr
            simp [← hr, addThai_iterations, basePackage]
          · simp [hc, hs, hq] at hr
            simp [← hr, addThai_iterations, basePackage]
  | succ r' ih =>
    intro iteration feedback r hr
    unfold quality_loop_go at hr
    cases hg : genCall C selected_model iteration context feedback with
    | error e => simp [hg] at hr
    | ok ar =>
      simp only [hg] at hr
      by_cases hc : extractContent selected_model ar = ""
      · simp [hc] at hr
      · simp only [hc, if_neg, if_false] at hr
        cases hs : C.evalQuality iteration (extractContent selected_model ar)
            (buildQualityContext context) with
        | error e => simp [hc, hs] at hr
        | ok qf =>
          by_cases hq : qf.score ≥ QUALITY_THRESHOLD
          · simp [hc, hs, hq] at hr
            simp [← hr, addThai_iterations, basePackage]
          · simp [hc, hs, hq] at hr
            have := ih (iteration + 1) (some (mkFeedback qf)) r hr
            omega

/-- Every run records at least one attempt, and the first recorded attempt
carries the feedback the run was started with. -/
theorem go_head_feedback : ∀ remaining iteration feedback,
    ∃ a rest,
      (quality_loop_go C context include_thai selected_model
        remaining iteration feedback).attempts = a :: rest ∧
      a.feedback_in = feedback := by
  intro remaining iteration feedback
  unfold quality_loop_go
  cases hg : genCall C selected_model iteration context feedback with
  | error e => exact ⟨_, _, rfl, rfl⟩
  | ok ar =>
    simp only
    by_cases hc : extractContent selected_model ar = ""
    · simp only [hc, if_pos, if_true]
      exact ⟨_, _, rfl, rfl⟩
    · simp only [hc, if_neg, if_false]
      cases hs : C.evalQuality iteration (extractContent selected_model ar)
          (buildQualityContext context) with
      | error e => exact ⟨_, _, rfl, rfl⟩
      | ok qf =>
        by_cases hq : qf.score ≥ QUALITY_THRESHOLD
        · simp only [hq, if_pos, if_true]
          exact ⟨_, _, rfl, rfl⟩
        · simp only [hq, if_neg, if_false]
          cases remaining with
          | zero => exact ⟨_, _, rfl, rfl⟩
          | succ r => exact ⟨_, _, rfl, rfl⟩

/-- If the attempt at index j of a run scored at or above the threshold,
then that attempt is the run's last one and the run returns exactly that
attempt's draft and score, with iteration count iteration + j. -/
theorem go_accept : ∀ remaining iteration feedback j a ar qf,
    (quality_loop_go C context include_thai selected_model
      remaining iteration feedback).attempts.get? j = some a →
    a.gen_result = .ok ar →
    a.score_result = some (.ok qf) →
    qf.score ≥ QUALITY_THRESHOLD →
    (quality_loop_go C context include_thai selected_model
      remaining iteration feedback).attempts.length = j + 1 ∧
    (quality_loop_go C context include_thai selected_model
      remaining iteration feedback).result =
      .ok (addThai C include_thai
            (basePackage (extractContent selected_model ar)
              (ar.layout.getD emptyLayoutData) qf (iteration + j)
              (ar.source_usage_details.getD []))
            (extractContent selected_model ar) (ar.layout.getD emptyLayoutData)
            (ar.source_usage_details.getD [])) := by
  intro remaining
  induction remaining with
  | zero =>
    intro iteration feedback j a ar qf hget hgen hsc hq
    unfold quality_loop_go at hget ⊢
    cases hg : genCall C selected_model iteration context feedback with
    | error e =>
      simp only [hg] at hget
      cases j with
      | zero => simp at hget; rw [← hget] at hgen; simp at hgen
      | succ j' => simp at hget
    | ok ar' =>
      simp only [hg] at hget ⊢
      by_cases hc : extractContent selected_model ar' = ""
      · simp only [hc, if_pos, if_true] at hget
        cases j with
        | zero => simp at hget; rw [← hget] at hsc; simp at hsc
        | succ j' => simp at hget
      · simp only [hc, if_neg, if_false] at hget ⊢
        cases hs : C.evalQuality iteration (extractContent selected_model ar')
            (buildQualityContext context) with
        | error e =>
          simp only [hs] at hget
          cases j with
          | zero => simp at hget; rw [← hget] at hsc; simp at hsc
          | succ j' => simp at hget
        | ok qf' =>
          simp only [hs] at hget ⊢
          by_cases hq' : qf'.score ≥ QUALITY_THRESHOLD
          · simp only [hq', if_pos, if_true] at hget ⊢
            cases j with
            | succ j' => simp at hget
            | zero =>
              simp at hget
              rw [← hget] at hgen hsc
              simp at hgen hsc
              subst hgen
              rw [hsc] at hq' ⊢
              exact ⟨by simp, by simp⟩
          · simp only [hq', if_neg, if_false] at hget ⊢
            cases j with
            | succ j' => simp at hget
            | zero =>
              simp at hget
              rw [← hget] at hsc
              simp at hsc
              rw [hsc] at hq'
              exact absurd hq hq'
  | succ r' ih =>
    intro iteration feedback j a ar qf hget hgen hsc hq
    unfold quality_loop_go at hget ⊢
    cases hg : genCall C selected_model iteration context feedback with
    | error e =>
      simp only [hg] at hget
      cases j with
      | zero => simp at hget; rw [← hget] at hgen; simp at hgen
      | succ j' => simp at hget
    | ok ar' =>
      simp only [hg] at hget ⊢
      by_cases hc : extractContent selected_model ar' = ""
      · simp only [hc, if_pos, if_true] at hget
        cases j with
        | zero => simp at hget; rw [← hget] at hsc; simp at hsc
        | succ j' => simp at hget
      · simp only [hc, if_neg, if_false] at hget ⊢
        cases hs : C.evalQuality iteration (extractContent selected_model ar')
            (buildQualityContext context) with
        | error e =>
          simp only [hs] at hget
          cases j with
          | zero => simp at hget; rw [← hget] at hsc; simp at hsc
          | succ j' => simp at hget
        | ok qf' =>
          simp only [hs] at hget ⊢
          by_cases hq' : qf'.score ≥ QUALITY_THRESHOLD
          · simp only [hq', if_pos, if_true] at hget ⊢
            cases j with
            | succ j' => simp at hget
            | zero =>
              simp at hget
              rw [← hget] at hgen hsc
              simp at hgen hsc
              subst hgen
              rw [hsc] at hq' ⊢
              exact ⟨by simp, by simp⟩
          · simp only [hq', if_neg, if_false] at hget ⊢
            cases j with
            | zero =>
              simp at hget
              rw [← hget] at hsc
              simp at hsc
              rw [hsc] at hq'
              exact absurd hq hq'
            | succ j' =>
              simp only [List.get?_cons_succ] at hget
              obtain ⟨hlen, hres⟩ :=
                ih (iteration + 1) (some (mkFeedback qf')) j' a ar qf hget hgen hsc hq
              have hnn : iteration + (j' + 1) = iteration + 1 + j' := by omega
              refine ⟨by simp [hlen], ?_⟩
              rw [hnn]
              simpa using hres

/-- If the attempt at index j of a run produced empty extracted content,
the run aborts there with HTTP 500 "Generated article has no content",
that attempt made no scoring call, and no further attempt follows. -/
theorem go_empty_content : ∀ remaining iteration feedback j a ar,
    (quality_loop_go C context include_thai selected_model
      remaining iteration feedback).attempts.get? j = some a →
    a.gen_result = .ok ar →
    extractContent selected_model ar = "" →
    (quality_loop_go C context include_thai selected_model
      remaining iteration feedback).result =
        .error ⟨500, "Generated article has no content"⟩ ∧
    a.score_result = none ∧
    (quality_loop_go C context include_thai selected_model
      remaining iteration feedback).attempts.length = j + 1 := by
  intro remaining
  induction remaining with
  | zero =>
    intro iteration feedback j a ar hget hgen hce
    unfold quality_loop_go at hget ⊢
    cases hg : genCall C selected_model iteration context feedback with
    | error e =>
      simp only [hg] at hget
      cases j with
      | zero => simp at hget; rw [← hget] at hgen; simp at hgen
      | succ j' => simp at hget
    | ok ar' =>
      simp only [hg] at hget ⊢
      by_cases hc : extractContent selected_model ar' = ""
      · simp only [hc, if_pos, if_true] at hget ⊢
        cases j with
        | zero => simp at hget; rw [← hget]; simp
        | succ j' => simp at hget
      · simp only [hc, if_neg, if_false] at hget ⊢
        cases hs : C.evalQuality iteration (extractContent selected_model ar')
            (buildQualityContext context) with
        | error e =>
          simp only [hs] at hget
          cases j with
          | zero =>
            simp at hget
            rw [← hget] at hgen
            simp at hgen
            subst hgen
            exact absurd hce hc
          | succ j' => simp at hget
        | ok qf' =>
          simp only [hs] at hget ⊢
          by_cases hq' : qf'.score ≥ QUALITY_THRESHOLD <;>
            simp only [hq', if_pos, if_neg, if_true, if_false] at hget ⊢ <;>
            cases j with
            | zero =>
              simp at hget
              rw [← hget] at hgen
              simp at hgen
              subst hgen
              exact absurd hce hc
            | succ j' => simp at hget
  | succ r' ih =>
    intro iteration feedback j a ar hget hgen hce
    unfold quality_loop_go at hget ⊢
    cases hg : genCall C selected_model iteration context feedback with
    | error e =>
      simp only [hg] at hget
      cases j with
      | zero => simp at hget; rw [← hget] at hgen; simp at hgen
      | succ j' => simp at hget
    | ok ar' =>
      simp only [hg] at hget ⊢
      by_cases hc : extractContent selected_model ar' = ""
      · simp only [hc, if_pos, if_true] at hget ⊢
        cases j with
        | zero => simp at hget; rw [← hget]; simp
        | succ j' => simp at hget
      · simp only [hc, if_neg, if_false] at hget ⊢
        cases hs : C.evalQuality iteration (extractContent selected_model ar')
            (buildQualityContext context) with
        | error e =>
          simp only [hs] at hget
          cases j with
          | zero =>
            simp at hget
            rw [← hget] at hgen
            simp at hgen
            subst hgen
            exact absurd hce hc
          | succ j' => simp at hget
        | ok qf' =>
          simp only [hs] at hget ⊢
          by_cases hq' : qf'.score ≥ QUALITY_THRESHOLD
          · simp only [hq', if_pos, if_true] at hget ⊢
            cases j with
            | zero =>
              simp at hget
              rw [← hget] at hgen
              simp at hgen
              subst hgen
              exact absurd hce hc
            | succ j' => simp at hget
          · simp only [hq', if_neg, if_false] at hget ⊢
            cases j with
            | zero =>
              simp at hget
              rw [← hget] at hgen
              simp at hgen
              subst hgen
              exact absurd hce hc
            | succ j' =>
              simp only [List.get?_cons_succ] at hget
              have := ih (iteration + 1) (some (mkFeedback qf')) j' a ar hget hgen hce
              obtain ⟨h1, h2, h3⟩ := this
              exact ⟨by simp [h1], h2, by simp [h3]⟩

/-- A raised generation call at attempt j aborts the run there with
HTTP 500 "Error in article generation: ...", no scoring call for that
attempt, and no further attempt. -/
theorem go_gen_error : ∀ remaining iteration feedback j a e,
    (quality_loop_go C context include_thai selected_model
      remaining iteration feedback).attempts.get? j = some a →
    a.gen_result = .error e →
    (quality_loop_go C context include_thai selected_model
      remaining iteration feedback).result =
        .error ⟨500, "Error in article generation: " ++ e⟩ ∧
    a.score_result = none ∧
    (quality_loop_go C context include_thai selected_model
      remaining iteration feedback).attempts.length = j + 1 := by
  intro remaining
  induction remaining with
  | zero =>
    intro iteration feedback j a e hget hgen
    unfold quality_loop_go at hget ⊢
    cases hg : genCall C selected_model iteration context feedback with
    | error e' =>
      simp only [hg] at hget ⊢
      cases j with
      | zero =>
        simp at hget
        rw [← hget] at hgen ⊢
        simp at hgen
        subst hgen
        simp
      | succ j' => simp at hget
    | ok ar' =>
      simp only [hg] at hget ⊢
      by_cases hc : extractContent selected_model ar' = ""
      · simp only [hc, if_pos, if_true] at hget
        cases j with
        | zero => simp at hget; rw [← hget] at hgen; simp at hgen
        | succ j' => simp at hget
      · simp only [hc, if_neg, if_false] at hget ⊢
        cases hs : C.evalQuality iteration (extractContent selected_model ar')
            (buildQualityContext context) with
        | error e' =>
          simp only [hs] at hget
          cases j with
          | zero => simp at hget; rw [← hget] at hgen; simp at hgen
          | succ j' => simp at hget
        | ok qf' =>
          simp only [hs] at hget ⊢
          by_cases hq' : qf'.score ≥ QUALITY_THRESHOLD <;>
            simp only [hq', if_pos, if_neg, if_true, if_false] at hget ⊢ <;>
            cases j with
            | zero => simp at hget; rw [← hget] at hgen; simp at hgen
            | succ j' => simp at hget
  | succ r' ih =>
    intro iteration feedback j a e hget hgen
    unfold quality_loop_go at hget ⊢
    cases hg : genCall C selected_model iteration context feedback with
    | error e' =>
      simp only [hg] at hget ⊢
      cases j with
      | zero =>
        simp at hget
        rw [← hget] at hgen ⊢
        simp at hgen
        subst hgen
        simp
      | succ j' => simp at hget
    | ok ar' =>
      simp only [hg] at hget ⊢
      by_cases hc : extractContent selected_model ar' = ""
      · simp only [hc, if_pos, if_true] at hget
        cases j with
        | zero => simp at hget; rw [← hget] at hgen; simp at hgen
        | succ j' => simp at hget
      · simp only [hc, if_neg, if_false] at hget ⊢
        cases hs : C.evalQuality iteration (extractContent selected_model ar')
            (buildQualityContext context) with
        | error e' =>
          simp only [hs] at hget
          cases j with
          | zero => simp at hget; rw [← hget] at hgen; simp at hgen
          | succ j' => simp at hget
        | ok qf' =>
          simp only [hs] at hget ⊢
          by_cases hq' : qf'.score ≥ QUALITY_THRESHOLD
          · simp only [hq', if_pos, if_true] at hget ⊢
            cases j with
            | zero => simp at hget; rw [← hget] at hgen; simp at hgen
            | succ j' => simp at hget
          · simp only [hq', if_neg, if_false] at hget ⊢
            cases j with
            | zero => simp at hget; rw [← hget] at hgen; simp at hgen
            | succ j' =>
              simp only [List.get?_cons_succ] at hget
              have := ih (iteration + 1) (some (mkFeedback qf')) j' a e hget hgen
              obtain ⟨h1, h2, h3⟩ := this
              exact ⟨by simp [h1], h2, by simp [h3]⟩

/-- A raised scoring call at attempt j aborts the run there with
HTTP 500 "Error in quality evaluation: ...", and no further attempt. -/
theorem go_score_error : ∀ remaining iteration feedback j a e,
    (quality_loop_go C context include_thai selected_model
      remaining iteration feedback).attempts.get? j = some a →
    a.score_result = some (.error e) →
    (quality_loop_go C context include_thai selected_model
      remaining iteration feedback).result =
        .error ⟨500, "Error in quality evaluation: " ++ e⟩ ∧
    (quality_loop_go C context include_thai selected_model
      remaining iteration feedback).attempts.length = j + 1 := by
  intro remaining
  induction remaining with
  | zero =>
    intro iteration feedback j a e hget hsc
    unfold quality_loop_go at hget ⊢
    cases hg : genCall C selected_model iteration context feedback with
    | error e' =>
      simp only [hg] at hget
      cases j with
      | zero => simp at hget; rw [← hget] at hsc; simp at hsc
      | succ j' => simp at hget
    | ok ar' =>
      simp only [hg] at hget ⊢
      by_cases hc : extractContent selected_model ar' = ""
      · simp only [hc, if_pos, if_true] at hget
        cases j with
        | zero => simp at hget; rw [← hget] at hsc; simp at hsc
        | succ j' => simp at hget
      · simp only [hc, if_neg, if_false] at hget ⊢
        cases hs : C.evalQuality iteration (extractContent selected_model ar')
            (buildQualityContext context) with
        | error e' =>
          simp only [hs] at hget ⊢
          cases j with
          | zero =>
            simp at hget
            rw [← hget] at hsc
            simp at hsc
            subst hsc
            simp
          | succ j' => simp at hget
        | ok qf' =>
          simp only [hs] at hget ⊢
          by_cases hq' : qf'.score ≥ QUALITY_THRESHOLD <;>
            simp only [hq', if_pos, if_neg, if_true, if_false] at hget ⊢ <;>
            cases j with
            | zero => simp at hget; rw [← hget] at hsc; simp at hsc
            | succ j' => simp at hget
  | succ r' ih =>
    intro iteration feedback j a e hget hsc
    unfold quality_loop_go at hget ⊢
    cases hg : genCall C selected_model iteration context feedback with
    | error e' =>
      simp only [hg] at hget
      cases j with
      | zero => simp at hget; rw [← hget] at hsc; simp at hsc
      | succ j' => simp at hget
    | ok ar' =>
      simp only [hg] at hget ⊢
      by_cases hc : extractContent selected_model ar' = ""
      · simp only [hc, if_pos, if_true] at hget
        cases j with
        | zero => simp at hget; rw [← hget] at hsc; simp at hsc
        | succ j' => simp at hget
      · simp only [hc, if_neg, if_false] at hget ⊢
        cases hs : C.evalQuality iteration (extractContent selected_model ar')
            (buildQualityContext context) with
        | error e' =>
          simp only [hs] at hget ⊢
          cases j with
          | zero =>
            simp at hget
            rw [← hget] at hsc
            simp at hsc
            subst hsc
            simp
          | succ j' => simp at hget
        | ok qf' =>
          simp only [hs] at hget ⊢
          by_cases hq' : qf'.score ≥ QUALITY_THRESHOLD
          · simp only [hq', if_pos, if_true] at hget ⊢
            cases j with
            | zero => simp at hget; rw [← hget] at hsc; simp at hsc
            | succ j' => simp at hget
          · simp only [hq', if_neg, if_false] at hget ⊢
            cases j with
            | zero => simp at hget; rw [← hget] at hsc; simp at hsc
            | succ j' =>
              simp only [List.get?_cons_succ] at hget
              have := ih (iteration + 1) (some (mkFeedback qf')) j' a e hget hsc
              obtain ⟨h1, h2⟩ := this
              exact ⟨by simp [h1], by simp [h2]⟩

/-- After a successful but below-threshold scoring at attempt j with
further iterations permitted, the next attempt exists and its generation
call receives exactly the synthesized feedback string. -/
theorem go_feedback_next : ∀ remaining iteration feedback j a qf,
    (quality_loop_go C context include_thai selected_model
      remaining iteration feedback).attempts.get? j = some a →
    a.score_result = some (.ok qf) →
    ¬ qf.score ≥ QUALITY_THRESHOLD →
    j < remaining →
    ∃ b, (quality_loop_go C context include_thai selected_model
            remaining iteration feedback).attempts.get? (j + 1) = some b ∧
      b.feedback_in = some (mkFeedback qf) := by
  intro remaining
  induction remaining with
  | zero => intro iteration feedback j a qf _ _ _ hj; omega
  | succ r' ih =>
    intro iteration feedback j a qf hget hsc hlow hj
    unfold quality_loop_go at hget ⊢
    cases hg : genCall C selected_model iteration context feedback with
    | error e =>
      simp only [hg] at hget
      cases j with
      | zero => simp at hget; rw [← hget] at hsc; simp at hsc
      | succ j' => simp at hget
    | ok ar' =>
      simp only [hg] at hget ⊢
      by_cases hc : extractContent selected_model ar' = ""
      · simp only [hc, if_pos, if_true] at hget
        cases j with
        | zero => simp at hget; rw [← hget] at hsc; simp at hsc
        | succ j' => simp at hget
      · simp only [hc, if_neg, if_false] at hget ⊢
        cases hs : C.evalQuality iteration (extractContent selected_model ar')
            (buildQualityContext context) with
        | error e =>
          simp only [hs] at hget
          cases j with
          | zero => simp at hget; rw [← hget] at hsc; simp at hsc
          | succ j' => simp at hget
        | ok qf' =>
          simp only [hs] at hget ⊢
          by_cases hq' : qf'.score ≥ QUALITY_THRESHOLD
          · simp only [hq', if_pos, if_true] at hget
            cases j with
            | zero =>
              simp at hget
              rw [← hget] at hsc
              simp at hsc
              rw [hsc] at hq'
              exact absurd hq' hlow
            | succ j' => simp at hget
          · simp only [hq', if_neg, if_false] at hget ⊢
            cases j with
            | zero =>
              simp at hget
              rw [← hget] at hsc
              simp at hsc
              obtain ⟨b, rest, hb, hfb⟩ :=
                go_head_feedback C context include_thai selected_model
                  r' (iteration + 1) (some (mkFeedback qf'))
              refine ⟨b, by simp [hb], ?_⟩
              rw [hfb, hsc]
            | succ j' =>
              simp only [List.get?_cons_succ] at hget
              obtain ⟨b, hb, hfb⟩ :=
                ih (iteration + 1) (some (mkFeedback qf')) j' a qf hget hsc hlow
                  (by omega)
              exact ⟨b, by simpa using hb, hfb⟩

/-- When every generation call succeeds with non-empty content and every
scoring call succeeds with a below-threshold score, the run uses all
remaining + 1 iterations and returns the last attempt's draft and score
as a successful result. -/
theorem go_all_low
    (hg : ∀ i fb, ∃ ar, genCall C selected_model i context fb = .ok ar ∧
            extractContent selected_model ar ≠ "")
    (hs : ∀ i c, ∃ qf, C.evalQuality i c (buildQualityContext context) = .ok qf ∧
            ¬ qf.score ≥ QUALITY_THRESHOLD) :
    ∀ remaining iteration feedback,
    ∃ r a ar qf,
      (quality_loop_go C context include_thai selected_model
        remaining iteration feedback).result = .ok r ∧
      (quality_loop_go C context include_thai selected_model
        remaining iteration feedback).attempts.length = remaining + 1 ∧
      (quality_loop_go C context include_thai selected_model
        remaining iteration feedback).attempts.get? remaining = some a ∧
      a.gen_result = .ok ar ∧
      a.score_result = some (.ok qf) ∧
      r.content = extractContent selected_model ar ∧
      r.layout = parse_layout (ar.layout.getD emptyLayoutData) ∧
      r.quality_score = qf.score ∧
      r.iterations = iteration + remaining ∧
      r.source_usage_details = ar.source_usage_details.getD [] ∧
      ¬ qf.score ≥ QUALITY_THRESHOLD := by
  intro remaining
  induction remaining with
  | zero =>
    intro iteration feedback
    obtain ⟨ar, hga, hne⟩ := hg iteration feedback
    obtain ⟨qf, hqa, hlow⟩ := hs iteration (extractContent selected_model ar)
    unfold quality_loop_go
    simp only [hga, hne, if_neg, if_false, hqa, hlow]
    refine ⟨_, ⟨feedback, .ok ar, some (.ok qf)⟩, ar, qf, rfl, by simp, by simp,
      rfl, rfl, ?_, ?_, ?_, ?_, ?_, hlow⟩ <;>
      simp [addThai_content, addThai_layout, addThai_quality_score,
        addThai_iterations, addThai_source_usage_details, basePackage]
  | succ r' ih =>
    intro iteration feedback
    obtain ⟨ar, hga, hne⟩ := hg iteration feedback
    obtain ⟨qf, hqa, hlow⟩ := hs iteration (extractContent selected_model ar)
    unfold quality_loop_go
    simp only [hga, hne, if_neg, if_false, hqa, hlow]
    obtain ⟨r, a, ar', qf', h1, h2, h3, h4, h5, h6, h7, h8, h9, h10, h11⟩ :=
      ih (iteration + 1) (some (mkFeedback qf))
    exact ⟨r, a, ar', qf', by simp [h1], by simp [h2], by simpa using h3, h4, h5,
      h6, h7, h8, by omega, h10, h11⟩

end LoopLemmas

/-- A translation call that failed: either it raised, or it reported
translation_success false (the dict.get default covering a missing key). -/
def translationFailed : Except String ThaiResult → Prop
  | .error _ => True
  | .ok t => t.translation_success.getD false = false

theorem addThai_false (C : Collaborators) (res : LoopResult)
    (c : String) (l : LayoutData) (s : List SourceUsageRecord) :
    addThai C false res c l s = res := rfl

theorem addThai_failed (C : Collaborators)
    (h : ∀ c l s, translationFailed (C.translateToThai c l s))
    (b : Bool) (res : LoopResult) (c : String) (l : LayoutData)
    (s : List SourceUsageRecord) :
    addThai C b res c l s = res := by
  unfold addThai
  split
  · cases ht : C.translateToThai c l s with
    | error e => rfl
    | ok t =>
      have hf := h c l s
      rw [ht] at hf
      unfold translationFailed at hf
      simp [hf]
  · rfl

section ThaiLemmas

variable (C : Collaborators) (context : GenerationContext) (selected_model : String)

/-- When every translation call fails, requesting Thai translation changes
nothing about the run: result and trace coincide with the run that never
asked for translation. -/
theorem go_thai_ignored
    (h : ∀ c l s, translationFailed (C.translateToThai c l s)) :
    ∀ remaining iteration feedback,
    quality_loop_go C context true selected_model remaining iteration feedback =
      quality_loop_go C context false selected_model remaining iteration feedback := by
  intro remaining
  induction remaining with
  | zero =>
    intro iteration feedback
    unfold quality_loop_go
    cases hg : genCall C selected_model iteration context feedback with
    | error e => rfl
    | ok ar =>
      simp only
      by_cases hc : extractContent selected_model ar = ""
      · simp [hc]
      · simp only [hc, if_neg, if_false]
        cases hs : C.evalQuality iteration (extractContent selected_model ar)
            (buildQualityContext context) with
        | error e => rfl
        | ok qf =>
          by_cases hq : qf.score ≥ QUALITY_THRESHOLD <;>
            simp [hq, addThai_failed C h, addThai_false]
  | succ r' ih =>
    intro iteration feedback
    unfold quality_loop_go
    cases hg : genCall C selected_model iteration context feedback with
    | error e => rfl
    | ok ar =>
      simp only
      by_cases hc : extractContent selected_model ar = ""
      · simp [hc]
      · simp only [hc, if_neg, if_false]
        cases hs : C.evalQuality iteration (extractContent selected_model ar)
            (buildQualityContext context) with
        | error e => rfl
        | ok qf =>
          by_cases hq : qf.score ≥ QUALITY_THRESHOLD
          · simp [hq, addThai_failed C h, addThai_false]
          · simp [hq, ih]

/-- A run that never asked for Thai translation returns a result without
Thai fields. -/
theorem go_false_thai_none : ∀ remaining iteration feedback r,
    (quality_loop_go C context false selected_model
      remaining iteration feedback).result = .ok r →
    r.thai_content = none ∧ r.thai_layout = none := by
  intro remaining
  induction remaining with
  | zero =>
    intro iteration feedback r hr
    unfold quality_loop_go at hr
    cases hg : genCall C selected_model iteration context feedback with
    | error e => simp [hg] at hr
    | ok ar =>
      simp only [hg] at hr
      by_cases hc : extractContent selected_model ar = ""
      · simp [hc] at hr
      · simp only [hc, if_neg, if_false] at hr
        cases hs : C.evalQuality iteration (extractContent selected_model ar)
            (buildQualityContext context) with
        | error e => simp [hs] at hr
        | ok qf =>
          by_cases hq : qf.score ≥ QUALITY_THRESHOLD <;>
            simp [hs, hq, addThai_false] at hr <;>
            simp [← hr, basePackage]
  | succ r' ih =>
    intro iteration feedback r hr
    unfold quality_loop_go at hr
    cases hg : genCall C selected_model iteration context feedback with
    | error e => simp [hg] at hr
    | ok ar =>
      simp only [hg] at hr
      by_cases hc : extractContent selected_model ar = ""
      · simp [hc] at hr
      · simp only [hc, if_neg, if_false] at hr
        cases hs : C.evalQuality iteration (extractContent selected_model ar)
            (buildQualityContext context) with
        | error e => simp [hs] at hr
        | ok qf =>
          by_cases hq : qf.score ≥ QUALITY_THRESHOLD
          · simp [hs, hq, addThai_false] at hr
            simp [← hr, basePackage]
          · simp [hs, hq] at hr
            exact ih (iteration + 1) (some (mkFeedback qf)) r hr

end ThaiLemmas

/-! ## Lemmas about the keyword parsing helpers -/

theorem pySplit_ne_nil (sep : Char) : ∀ l : List Char, pySplit sep l ≠ [] := by
  intro l
  cases l with
  | nil => simp [pySplit]
  | cons c cs =>
    unfold pySplit
    by_cases h : c = sep
    · simp [h]
    · simp only [h, if_neg, if_false]
      cases pySplit sep cs <;> simp

theorem pySplit_no_sep (sep : Char) :
    ∀ (l p : List Char), p ∈ pySplit sep l → sep ∉ p := by
  intro l
  induction l with
  | nil => intro p hp; simp [pySplit] at hp; simp [hp]
  | cons c cs ih =>
    intro p hp
    unfold pySplit at hp
    by_cases h : c = sep
    · simp only [h, if_pos, if_true] at hp
      rcases List.mem_cons.mp hp with h0 | h1
      · simp [h0]
      · exact ih p h1
    · simp only [h, if_neg, if_false] at hp
      cases hsp : pySplit sep cs with
      | nil => exact absurd hsp (pySplit_ne_nil sep cs)
      | cons t ts =>
        rw [hsp] at hp
        rcases List.mem_cons.mp hp with h0 | h1
        · subst h0
          intro hmem
          rcases List.mem_cons.mp hmem with h2 | h3
          · exact h h2.symm
          · exact ih t (by rw [hsp]; exact List.mem_cons_self t ts) h3
        · exact ih p (by rw [hsp]; exact List.mem_cons_of_mem t h1)

theorem pyLStrip_length : ∀ l : List Char, (pyLStrip l).length ≤ l.length := by
  intro l
  induction l with
  | nil => simp [pyLStrip]
  | cons c cs ih =>
    unfold pyLStrip
    by_cases h : isPySpace c
    · simp only [h, if_pos, if_true]
      calc (pyLStrip cs).length ≤ cs.length := ih
        _ ≤ (c :: cs).length := by simp
    · simp [h]

theorem pyLStrip_suffix : ∀ l : List Char, pyLStrip l <:+ l := by
  intro l
  induction l with
  | nil => simp [pyLStrip]
  | cons c cs ih =>
    unfold pyLStrip
    by_cases h : isPySpace c
    · simp only [h, if_pos, if_true]
      exact ih.trans (List.suffix_cons c cs)
    · simp [h]

theorem pyRStrip_prefix_self (l : List Char) : pyRStrip l <+: l := by
  unfold pyRStrip
  have h := pyLStrip_suffix l.reverse
  have h2 := List.reverse_prefix.mpr h
  simpa using h2

theorem pyStrip_sublist (l : List Char) : List.Sublist (pyStrip l) l := by
  unfold pyStrip
  exact ((pyRStrip_prefix_self (pyLStrip l)).sublist).trans (pyLStrip_suffix l).sublist

theorem pyLStrip_cons_space (c : Char) (cs : List Char) (h : isPySpace c = true) :
    pyLStrip (c :: cs) = pyLStrip cs := by
  simp [pyLStrip, h]

theorem pyLStrip_fixed_of_head (c : Char) (cs : List Char) (h : ¬ isPySpace c = true) :
    pyLStrip (c :: cs) = c :: cs := by
  simp [pyLStrip, h]

theorem pyLStrip_idem : ∀ l : List Char, pyLStrip (pyLStrip l) = pyLStrip l := by
  intro l
  induction l with
  | nil => rfl
  | cons c cs ih =>
    by_cases h : isPySpace c
    · rw [pyLStrip_cons_space c cs h]
      exact ih
    · rw [pyLStrip_fixed_of_head c cs h, pyLStrip_fixed_of_head c cs h]

theorem pyRStrip_idem (l : List Char) : pyRStrip (pyRStrip l) = pyRStrip l := by
  unfold pyRStrip
  rw [List.reverse_reverse, pyLStrip_idem]

/-- A list with no leading whitespace keeps that property after pyRStrip. -/
theorem pyLStrip_pyRStrip (t : List Char) (h : pyLStrip t = t) :
    pyLStrip (pyRStrip t) = pyRStrip t := by
  cases t with
  | nil => simp [pyRStrip, pyLStrip]
  | cons c cs =>
    have hc : ¬ isPySpace c = true := by
      intro hsp
      have : pyLStrip (c :: cs) = pyLStrip cs := by simp [pyLStrip, hsp]
      rw [h] at this
      have h1 := pyLStrip_length cs
      rw [← this] at h1
      simp at h1
    obtain ⟨r, hr⟩ := pyRStrip_prefix_self (c :: cs)
    cases hp : pyRStrip (c :: cs) with
    | nil => simp [pyLStrip]
    | cons d ds =>
      rw [hp] at hr
      have hd : d = c := by
        have := hr
        simp at this
        exact this.1
      subst hd
      exact pyLStrip_fixed_of_head d ds hc

theorem pyStrip_idem (l : List Char) : pyStrip (pyStrip l) = pyStrip l := by
  unfold pyStrip
  rw [pyLStrip_pyRStrip (pyLStrip l) (pyLStrip_idem l), pyRStrip_idem]

theorem pyStrip_cons_space (s : List Char) : pyStrip (' ' :: s) = pyStrip s := by
  unfold pyStrip
  have : pyLStrip (' ' :: s) = pyLStrip s := by
    simp [pyLStrip, isPySpace]
  rw [this]

theorem pySplit_no_sep_eq (sep : Char) :
    ∀ a : List Char, sep ∉ a → pySplit sep a = [a] := by
  intro a
  induction a with
  | nil => intro _; simp [pySplit]
  | cons c cs ih =>
    intro h
    have hc : ¬ c = sep := fun hc => h (by simp [hc])
    have hcs : sep ∉ cs := fun hm => h (List.mem_cons_of_mem c hm)
    unfold pySplit
    simp only [hc, if_neg, if_false]
    rw [ih hcs]

theorem pySplit_cons (sep c : Char) (cs : List Char) :
    pySplit sep (c :: cs) =
      if c = sep then [] :: pySplit sep cs
      else match pySplit sep cs with
        | [] => [[c]]
        | t :: ts => (c :: t) :: ts := rfl

theorem pySplit_append (sep : Char) :
    ∀ (a t : List Char), sep ∉ a →
      pySplit sep (a ++ sep :: t) = a :: pySplit sep t := by
  intro a
  induction a with
  | nil =>
    intro t _
    simp [pySplit]
  | cons c cs ih =>
    intro t h
    have hc : ¬ c = sep := fun hc => h (by simp [hc])
    have hcs : sep ∉ cs := fun hm => h (List.mem_cons_of_mem c hm)
    simp only [List.cons_append]
    rw [pySplit_cons]
    simp only [hc, if_neg, if_false]
    rw [ih t hcs]

theorem pyJoin_cons_cons (a b : List Char) (l : List (List Char)) :
    pyJoinCommaSpace (a :: b :: l) =
      a ++ ',' :: pyJoinCommaSpace ((' ' :: b) :: l) := by
  cases l with
  | nil => simp [pyJoinCommaSpace]
  | cons x xs => simp [pyJoinCommaSpace]

/-- Splitting the ", "-join of well-formed keywords on commas and
re-stripping recovers the keywords. -/
theorem pySplit_join_strip :
    ∀ (l : List (List Char)) (a : List Char), ',' ∉ a → pyStrip a ≠ [] →
    (∀ k ∈ l, k ≠ [] ∧ ',' ∉ k ∧ pyStrip k = k) →
    ((pySplit ',' (pyJoinCommaSpace (a :: l))).map pyStrip).filter
      (fun kw => decide (kw ≠ [])) = pyStrip a :: l := by
  intro l
  induction l with
  | nil =>
    intro a ha hane _
    show ((pySplit ',' (pyJoinCommaSpace [a])).map pyStrip).filter
      (fun kw => decide (kw ≠ [])) = pyStrip a :: []
    rw [show pyJoinCommaSpace [a] = a from rfl, pySplit_no_sep_eq ',' a ha]
    simp [hane]
  | cons b l' ih =>
    intro a ha hane hmem
    rw [pyJoin_cons_cons a b l']
    have hb := hmem b (List.mem_cons_self b l')
    have hbspace : ',' ∉ (' ' :: b) := by
      intro hm
      rcases List.mem_cons.mp hm with h1 | h2
      · exact absurd h1.symm (by decide)
      · exact hb.2.1 h2
    have hbs : pyStrip (' ' :: b) = b := by
      rw [pyStrip_cons_space, hb.2.2]
    have := ih (' ' :: b) hbspace (by rw [hbs]; exact hb.1)
      (fun k hk => hmem k (List.mem_cons_of_mem b hk))
    rw [hbs] at this
    have hsplit := pySplit_append ',' a (pyJoinCommaSpace ((' ' :: b) :: l')) ha
    rw [hsplit]
    simp only [List.map_cons, List.filter_cons]
    rw [this]
    simp [hane]

/-- Every parsed keyword is non-empty, comma-free, and fixed under
stripping. -/
theorem parse_seo_keywords_mem (s k : List Char)
    (hk : k ∈ parse_seo_keywords (some s)) :
    k ≠ [] ∧ ',' ∉ k ∧ pyStrip k = k := by
  simp only [parse_seo_keywords] at hk
  by_cases hs : s = []
  · simp [hs] at hk
  · rw [if_neg hs] at hk
    rw [List.mem_filter] at hk
    obtain ⟨hmem, hne⟩ := hk
    rw [List.mem_map] at hmem
    obtain ⟨p, hp, hkp⟩ := hmem
    have hsep : ',' ∉ p := pySplit_no_sep ',' s p hp
    subst hkp
    refine ⟨by simpa using hne, ?_, pyStrip_idem p⟩
    intro hmem'
    exact hsep ((pyStrip_sublist p).subset hmem')

/-- Re-parsing the ", "-join of any parse output yields the same list. -/
theorem parse_seo_keywords_roundtrip (s : List Char) :
    parse_seo_keywords (some (pyJoinCommaSpace (parse_seo_keywords (some s)))) =
      parse_seo_keywords (some s) := by
  cases hout : parse_seo_keywords (some s) with
  | nil => rfl
  | cons a rest =>
    have hmem : ∀ k ∈ a :: rest, k ≠ [] ∧ ',' ∉ k ∧ pyStrip k = k := by
      intro k hk
      exact parse_seo_keywords_mem s k (by rw [hout]; exact hk)
    have ha := hmem a (List.mem_cons_self a rest)
    have hjne : pyJoinCommaSpace (a :: rest) ≠ [] := by
      cases rest with
      | nil => simpa [pyJoinCommaSpace] using ha.1
      | cons b rs => simp [pyJoinCommaSpace]
    show parse_seo_keywords (some (pyJoinCommaSpace (a :: rest))) = a :: rest
    simp only [parse_seo_keywords]
    rw [if_neg hjne]
    have hrt := pySplit_join_strip rest a ha.2.1 (by rw [ha.2.2]; exact ha.1)
      (fun k hk => hmem k (List.mem_cons_of_mem a hk))
    rw [hrt, ha.2.2]

/-! ## Concrete collaborator stubs used by the witnesses -/

/-- An all-empty generation context. -/
def ctx0 : GenerationContext := ⟨none, none, none, none, none, none, none, [], none⟩

/-- A generation result with non-empty markdown content and empty layout. -/
def okArticle : ArticleResult :=
  ⟨some "Draft body.", none, none, some ⟨some [], some []⟩, some []⟩

/-- A generation result whose extracted content is empty. -/
def emptyArticle : ArticleResult := ⟨some "", none, none, none, none⟩

/-- A quality verdict above the threshold. -/
def qfHigh : QualityFeedback := ⟨mkRat 9 10, "good", []⟩

/-- A quality verdict below the threshold. -/
def qfLow : QualityFeedback := ⟨mkRat 3 10, "weak", ["improve intro"]⟩

/-- Stub collaborators that always generate okArticle and always score it
above the threshold; the translator always raises. -/
def stubAccept : Collaborators :=
  ⟨fun _ _ _ => .ok okArticle, fun _ _ _ => .ok okArticle,
   fun _ _ _ => .ok qfHigh, fun _ _ _ => .error "no translator",
   fun _ _ => .error "no analysis"⟩

/-- Stub collaborators that always generate okArticle and always score it
below the threshold; the translator always raises. -/
def stubAllLow : Collaborators :=
  ⟨fun _ _ _ => .ok okArticle, fun _ _ _ => .ok okArticle,
   fun _ _ _ => .ok qfLow, fun _ _ _ => .error "no translator",
   fun _ _ => .error "no analysis"⟩

/-- Stub collaborators whose generation result has empty content. -/
def stubEmptyContent : Collaborators :=
  ⟨fun _ _ _ => .ok emptyArticle, fun _ _ _ => .ok emptyArticle,
   fun _ _ _ => .ok qfHigh, fun _ _ _ => .error "unused",
   fun _ _ => .error "unused"⟩

/-- Stub collaborators whose gemini backend returns the non-JSON fallback
reply of LLMServiceGemini.generate_article. -/
def stubGeminiFallback : Collaborators :=
  ⟨fun _ _ _ => .error "unused",
   fun _ _ _ => LLMServiceGemini.generate_article "Just plain markdown." none,
   fun _ _ _ => .ok qfHigh, fun _ _ _ => .error "unused",
   fun _ _ => .error "unused"⟩

/-! ## The claims -/

/-- Claim C1: for every input and every behavior of the generation and
scoring collaborators, the quality loop performs at most
MAX_QUALITY_ITERATIONS (3) generate and score cycles, and the iterations
field of the returned result never exceeds MAX_QUALITY_ITERATIONS. -/
theorem quality_loop_bounded (C : Collaborators) (context : GenerationContext)
    (include_thai : Bool) (selected_model : String) :
    (generate_with_quality_loop C context include_thai selected_model).attempts.length ≤
      MAX_QUALITY_ITERATIONS ∧
    scoreCallCount (generate_with_quality_loop C context include_thai selected_model) ≤
      MAX_QUALITY_ITERATIONS ∧
    ∀ r, (generate_with_quality_loop C context include_thai selected_model).result = .ok r →
      r.iterations ≤ MAX_QUALITY_ITERATIONS := by
  have hlen := go_attempts_length C context include_thai selected_model
    (MAX_QUALITY_ITERATIONS - 1) 1 none
  refine ⟨?_, ?_, ?_⟩
  · unfold generate_with_quality_loop
    simpa [MAX_QUALITY_ITERATIONS] using hlen
  · unfold generate_with_quality_loop scoreCallCount
    have hf := List.length_filter_le (fun a : AttemptRecord => a.score_result.isSome)
      (quality_loop_go C context include_thai selected_model
        (MAX_QUALITY_ITERATIONS - 1) 1 none).attempts
    simp [MAX_QUALITY_ITERATIONS] at hlen hf ⊢
    omega
  · intro r hr
    have := go_result_iterations C context include_thai selected_model
      (MAX_QUALITY_ITERATIONS - 1) 1 none r (by simpa [generate_with_quality_loop] using hr)
    simpa [MAX_QUALITY_ITERATIONS] using this

theorem quality_loop_bounded_witness :
    (generate_with_quality_loop stubAccept ctx0 false "gpt-finetune").attempts.length ≤
      MAX_QUALITY_ITERATIONS ∧
    scoreCallCount (generate_with_quality_loop stubAccept ctx0 false "gpt-finetune") ≤
      MAX_QUALITY_ITERATIONS ∧
    (⟨"Draft body.", ⟨[], []⟩, mkRat 9 10, 1, [], none, none⟩ : LoopResult).iterations ≤
      MAX_QUALITY_ITERATIONS :=
  ⟨(quality_loop_bounded stubAccept ctx0 false "gpt-finetune").1,
   (quality_loop_bounded stubAccept ctx0 false "gpt-finetune").2.1,
   (quality_loop_bounded stubAccept ctx0 false "gpt-finetune").2.2
     ⟨"Draft body.", ⟨[], []⟩, mkRat 9 10, 1, [], none, none⟩ (by decide)⟩

/-- Claim C2: if on any iteration N the scorer returns score at or above
QUALITY_THRESHOLD, the loop stops at that iteration and returns that
iteration's draft packaged (via basePackage, i.e. with keys content,
layout, quality_score, iterations and source_usage_details, iterations
being N); no further generation attempt is made after an accepting
score. -/
theorem quality_loop_accept_stops (C : Collaborators) (context : GenerationContext)
    (include_thai : Bool) (selected_model : String) (N : Nat) (a : AttemptRecord)
    (ar : ArticleResult) (qf : QualityFeedback)
    (hN : 1 ≤ N)
    (hget : (generate_with_quality_loop C context include_thai
      selected_model).attempts.get? (N - 1) = some a)
    (hgen : a.gen_result = .ok ar)
    (hsc : a.score_result = some (.ok qf))
    (hok : qf.score ≥ QUALITY_THRESHOLD) :
    (generate_with_quality_loop C context include_thai selected_model).attempts.length = N ∧
    (generate_with_quality_loop C context include_thai selected_model).result =
      .ok (addThai C include_thai
            (basePackage (extractContent selected_model ar)
              (ar.layout.getD emptyLayoutData) qf N
              (ar.source_usage_details.getD []))
            (extractContent selected_model ar) (ar.layout.getD emptyLayoutData)
            (ar.source_usage_details.getD [])) := by
  obtain ⟨hlen, hres⟩ := go_accept C context include_thai selected_model
    (MAX_QUALITY_ITERATIONS - 1) 1 none (N - 1) a ar qf
    (by simpa [generate_with_quality_loop] using hget) hgen hsc hok
  have hNN : 1 + (N - 1) = N := by omega
  constructor
  · unfold generate_with_quality_loop
    rw [hlen]
    omega
  · unfold generate_with_quality_loop
    rw [hres, hNN]

theorem quality_loop_accept_stops_witness :
    (generate_with_quality_loop stubAccept ctx0 false "gpt-finetune").attempts.length = 1 ∧
    (generate_with_quality_loop stubAccept ctx0 false "gpt-finetune").result =
      .ok (addThai stubAccept false
            (basePackage (extractContent "gpt-finetune" okArticle)
              (okArticle.layout.getD emptyLayoutData) qfHigh 1
              (okArticle.source_usage_details.getD []))
            (extractContent "gpt-finetune" okArticle)
            (okArticle.layout.getD emptyLayoutData)
            (okArticle.source_usage_details.getD [])) :=
  quality_loop_accept_stops stubAccept ctx0 false "gpt-finetune" 1
    ⟨none, .ok okArticle, some (.ok qfHigh)⟩ okArticle qfHigh
    (by decide) (by decide) rfl rfl (by decide)

/-- Claim C3: if every scoring call returns a score below
QUALITY_THRESHOLD (and every generation call yields non-empty content, so
that the loop is not aborted), the loop exits after exactly
MAX_QUALITY_ITERATIONS iterations and returns the last iteration's draft
and the last iteration's score as a successful result (not an error), with
iterations = MAX_QUALITY_ITERATIONS; the result always carries the last
attempt's draft and score whatever the earlier scores were, so there is no
best-of selection. -/
theorem quality_loop_exhaustion_returns_last (C : Collaborators)
    (context : GenerationContext) (include_thai : Bool) (selected_model : String)
    (hg : ∀ i fb, ∃ ar, genCall C selected_model i context fb = .ok ar ∧
            extractContent selected_model ar ≠ "")
    (hs : ∀ i c, ∃ qf, C.evalQuality i c (buildQualityContext context) = .ok qf ∧
            ¬ qf.score ≥ QUALITY_THRESHOLD) :
    ∃ r a ar qf,
      (generate_with_quality_loop C context include_thai selected_model).result = .ok r ∧
      (generate_with_quality_loop C context include_thai selected_model).attempts.length =
        MAX_QUALITY_ITERATIONS ∧
      (generate_with_quality_loop C context include_thai selected_model).attempts.get?
        (MAX_QUALITY_ITERATIONS - 1) = some a ∧
      a.gen_result = .ok ar ∧
      a.score_result = some (.ok qf) ∧
      r.content = extractContent selected_model ar ∧
      r.layout = parse_layout (ar.layout.getD emptyLayoutData) ∧
      r.quality_score = qf.score ∧
      r.iterations = MAX_QUALITY_ITERATIONS ∧
      r.source_usage_details = ar.source_usage_details.getD [] ∧
      ¬ qf.score ≥ QUALITY_THRESHOLD := by
  obtain ⟨r, a, ar, qf, h1, h2, h3, h4, h5, h6, h7, h8, h9, h10, h11⟩ :=
    go_all_low C context include_thai selected_model hg hs
      (MAX_QUALITY_ITERATIONS - 1) 1 none
  refine ⟨r, a, ar, qf, h1, h2, h3, h4, h5, h6, h7, h8, ?_, h10, h11⟩
  simp [MAX_QUALITY_ITERATIONS] at h9 ⊢
  omega

theorem quality_loop_exhaustion_returns_last_witness :
    ∃ r a ar qf,
      (generate_with_quality_loop stubAllLow ctx0 false "gpt-finetune").result = .ok r ∧
      (generate_with_quality_loop stubAllLow ctx0 false "gpt-finetune").attempts.length =
        MAX_QUALITY_ITERATIONS ∧
      (generate_with_quality_loop stubAllLow ctx0 false "gpt-finetune").attempts.get?
        (MAX_QUALITY_ITERATIONS - 1) = some a ∧
      a.gen_result = .ok ar ∧
      a.score_result = some (.ok qf) ∧
      r.content = extractContent "gpt-finetune" ar ∧
      r.layout = parse_layout (ar.layout.getD emptyLayoutData) ∧
      r.quality_score = qf.score ∧
      r.iterations = MAX_QUALITY_ITERATIONS ∧
      r.source_usage_details = ar.source_usage_details.getD [] ∧
      ¬ qf.score ≥ QUALITY_THRESHOLD :=
  quality_loop_exhaustion_returns_last stubAllLow ctx0 false "gpt-finetune"
    (fun _ _ => ⟨okArticle, rfl, by decide⟩)
    (fun _ _ => ⟨qfLow, rfl, by decide⟩)

/-- Claim C4: within the loop, only a successful-but-low-scoring attempt
triggers a retry.  If the extracted content of attempt j+1 is empty, the
request aborts immediately with HTTP 500, zero scoring calls are made for
that attempt, and no further iteration runs; a raised generation call or
scoring call failure likewise propagates out of the loop as a request-level
HTTP 500 error instead of being retried. -/
theorem quality_loop_only_low_score_retries (C : Collaborators)
    (context : GenerationContext) (include_thai : Bool) (selected_model : String)
    (j : Nat) (a : AttemptRecord) (ar : ArticleResult) (e1 e2 : String)
    (hget : (generate_with_quality_loop C context include_thai
      selected_model).attempts.get? j = some a) :
    (a.gen_result = .ok ar → extractContent selected_model ar = "" →
      (generate_with_quality_loop C context include_thai selected_model).result =
        .error ⟨500, "Generated article has no content"⟩ ∧
      a.score_result = none ∧
      (generate_with_quality_loop C context include_thai
        selected_model).attempts.length = j + 1) ∧
    (a.gen_result = .error e1 →
      (generate_with_quality_loop C context include_thai selected_model).result =
        .error ⟨500, "Error in article generation: " ++ e1⟩ ∧
      a.score_result = none ∧
      (generate_with_quality_loop C context include_thai
        selected_model).attempts.length = j + 1) ∧
    (a.score_result = some (.error e2) →
      (generate_with_quality_loop C context include_thai selected_model).result =
        .error ⟨500, "Error in quality evaluation: " ++ e2⟩ ∧
      (generate_with_quality_loop C context include_thai
        selected_model).attempts.length = j + 1) := by
  refine ⟨fun hgen hce => ?_, fun hgen => ?_, fun hsc => ?_⟩
  · obtain ⟨h1, h2, h3⟩ := go_empty_content C context include_thai selected_model
      (MAX_QUALITY_ITERATIONS - 1) 1 none j a ar
      (by simpa [generate_with_quality_loop] using hget) hgen hce
    exact ⟨by simpa [generate_with_quality_loop] using h1, h2,
      by simpa [generate_with_quality_loop] using h3⟩
  · obtain ⟨h1, h2, h3⟩ := go_gen_error C context include_thai selected_model
      (MAX_QUALITY_ITERATIONS - 1) 1 none j a e1
      (by simpa [generate_with_quality_loop] using hget) hgen
    exact ⟨by simpa [generate_with_quality_loop] using h1, h2,
      by simpa [generate_with_quality_loop] using h3⟩
  · obtain ⟨h1, h2⟩ := go_score_error C context include_thai selected_model
      (MAX_QUALITY_ITERATIONS - 1) 1 none j a e2
      (by simpa [generate_with_quality_loop] using hget) hsc
    exact ⟨by simpa [generate_with_quality_loop] using h1,
      by simpa [generate_with_quality_loop] using h2⟩

theorem quality_loop_only_low_score_retries_witness :
    (AttemptRecord.gen_result ⟨none, .ok emptyArticle, none⟩ = .ok emptyArticle →
      extractContent "gpt-finetune" emptyArticle = "" →
      (generate_with_quality_loop stubEmptyContent ctx0 false "gpt-finetune").result =
        .error ⟨500, "Generated article has no content"⟩ ∧
      AttemptRecord.score_result ⟨none, .ok emptyArticle, none⟩ = none ∧
      (generate_with_quality_loop stubEmptyContent ctx0 false
        "gpt-finetune").attempts.length = 0 + 1) ∧
    (AttemptRecord.gen_result ⟨none, .ok emptyArticle, none⟩ = .error "boom" →
      (generate_with_quality_loop stubEmptyContent ctx0 false "gpt-finetune").result =
        .error ⟨500, "Error in article generation: " ++ "boom"⟩ ∧
      AttemptRecord.score_result ⟨none, .ok emptyArticle, none⟩ = none ∧
      (generate_with_quality_loop stubEmptyContent ctx0 false
        "gpt-finetune").attempts.length = 0 + 1) ∧
    (AttemptRecord.score_result ⟨none, .ok emptyArticle, none⟩ = some (.error "crash") →
      (generate_with_quality_loop stubEmptyContent ctx0 false "gpt-finetune").result =
        .error ⟨500, "Error in quality evaluation: " ++ "crash"⟩ ∧
      (generate_with_quality_loop stubEmptyContent ctx0 false
        "gpt-finetune").attempts.length = 0 + 1) :=
  quality_loop_only_low_score_retries stubEmptyContent ctx0 false "gpt-finetune"
    0 ⟨none, .ok emptyArticle, none⟩ emptyArticle "boom" "crash" (by decide)

/-- Claim C5: whenever iteration N scores below the threshold and
N < MAX_QUALITY_ITERATIONS, the generation call of iteration N + 1 receives
the feedback string "Quality score: " followed by iteration N's score
formatted to two decimals, ". ", iteration N's feedback text,
" Suggestions: " and iteration N's suggestions joined by "; "; the
generation call of iteration 1 receives feedback None. -/
theorem quality_loop_feedback_threading (C : Collaborators)
    (context : GenerationContext) (include_thai : Bool) (selected_model : String)
    (N : Nat) (a : AttemptRecord) (qf : QualityFeedback)
    (hN : 1 ≤ N)
    (hget : (generate_with_quality_loop C context include_thai
      selected_model).attempts.get? (N - 1) = some a)
    (hsc : a.score_result = some (.ok qf))
    (hlow : ¬ qf.score ≥ QUALITY_THRESHOLD)
    (hmax : N < MAX_QUALITY_ITERATIONS) :
    (∃ a0, (generate_with_quality_loop C context include_thai
        selected_model).attempts.get? 0 = some a0 ∧ a0.feedback_in = none) ∧
    ∃ b, (generate_with_quality_loop C context include_thai
        selected_model).attempts.get? N = some b ∧
      b.feedback_in = some ("Quality score: " ++ formatScore2 qf.score ++ ". " ++
        qf.feedback ++ " Suggestions: " ++
        String.intercalate "; " qf.suggestions) := by
  constructor
  · obtain ⟨a0, rest, h0, hf⟩ := go_head_feedback C context include_thai
      selected_model (MAX_QUALITY_ITERATIONS - 1) 1 none
    exact ⟨a0, by simp [generate_with_quality_loop, h0], hf⟩
  · obtain ⟨b, hb, hf⟩ := go_feedback_next C context include_thai selected_model
      (MAX_QUALITY_ITERATIONS - 1) 1 none (N - 1) a qf
      (by simpa [generate_with_quality_loop] using hget) hsc hlow
      (by simp [MAX_QUALITY_ITERATIONS] at hmax ⊢; omega)
    refine ⟨b, ?_, by rw [hf]; rfl⟩
    have hNN : N - 1 + 1 = N := by omega
    rw [← hNN]
    simpa [generate_with_quality_loop] using hb

theorem quality_loop_feedback_threading_witness :
    (∃ a0, (generate_with_quality_loop stubAllLow ctx0 false
        "gpt-finetune").attempts.get? 0 = some a0 ∧ a0.feedback_in = none) ∧
    ∃ b, (generate_with_quality_loop stubAllLow ctx0 false
        "gpt-finetune").attempts.get? 1 = some b ∧
      b.feedback_in = some ("Quality score: " ++ formatScore2 qfLow.score ++ ". " ++
        qfLow.feedback ++ " Suggestions: " ++
        String.intercalate "; " qfLow.suggestions) :=
  quality_loop_feedback_threading stubAllLow ctx0 false "gpt-finetune" 1
    ⟨none, .ok okArticle, some (.ok qfLow)⟩ qfLow
    (by decide) (by decide) rfl (by decide) (by decide)

/-- Claim C6 (code bug): for the lenient Gemini backend a non-empty reply
that is not parseable JSON is indeed returned whole as the markdown_content
of the attempt with an empty layout (the deliberate service-level
fallback), but the loop's gemini-pro content extraction reads the
html_content and content keys (article.py line 235), which the gemini
service never returns, so the extracted content is always empty and the
request aborts with HTTP 500 "Generated article has no content" with zero
scoring calls — the fallback draft is never scored, contradicting the
claim that the loop proceeds to score it. -/
theorem gemini_fallback_draft_never_scored :
    LLMServiceGemini.generate_article "Just plain markdown." none =
      .ok ⟨some "Just plain markdown.", none, none, some ⟨some [], some []⟩,
           some []⟩ ∧
    extractContent "gemini-pro"
      ⟨some "Just plain markdown.", none, none, some ⟨some [], some []⟩,
       some []⟩ = "" ∧
    (generate_with_quality_loop stubGeminiFallback ctx0 false "gemini-pro").result =
      .error ⟨500, "Generated article has no content"⟩ ∧
    scoreCallCount
      (generate_with_quality_loop stubGeminiFallback ctx0 false "gemini-pro") = 0 ∧
    (generate_with_quality_loop stubGeminiFallback ctx0 false
      "gemini-pro").attempts.length = 1 := by
  decide

/-- Claim C7 (code bug): the endpoint reads request.selected_model
(article.py line 112) although ArticleRequest (schemas.py lines 12-22)
declares no such field, so CPython raises AttributeError there; for every
request whose context building succeeds, the endpoint returns HTTP 500
carrying that message instead of choosing a backend from the field. -/
theorem generate_article_selected_model_missing (C : Collaborators)
    (request : ArticleRequest) (context : GenerationContext) :
    generate_article_endpoint C request (.ok context) =
      .error ⟨500, "Error generating article: " ++
        "'ArticleRequest' object has no attribute 'selected_model'"⟩ := rfl

/-- A loop result used to exercise the analysis attachment. -/
def d0 : LoopResult := ⟨"earlier draft", ⟨[], []⟩, 0, 1, [], none, none⟩

/-- Claim C8: a failure in the post-accept analysis call or in the Thai
translation call never aborts the request: an analysis failure yields a
response with analysis none and every other field copied unchanged from
the loop result, and when every translation call fails (raises, or reports
translation_success false) the loop's whole outcome is identical to a run
that never requested translation, whose successful results carry no Thai
fields. -/
theorem analysis_translation_failures_degrade (C : Collaborators)
    (context : GenerationContext) (selected_model : String) (e : String)
    (d : LoopResult) (r : LoopResult)
    (ht : ∀ c l s, translationFailed (C.translateToThai c l s))
    (hr : (generate_with_quality_loop C context false selected_model).result = .ok r) :
    (attachAnalysis (.error e) d).analysis = none ∧
    (attachAnalysis (.error e) d).content = d.content ∧
    (attachAnalysis (.error e) d).quality_score = d.quality_score ∧
    (attachAnalysis (.error e) d).iterations = d.iterations ∧
    (attachAnalysis (.error e) d).layout = d.layout ∧
    (attachAnalysis (.error e) d).thai_content = d.thai_content ∧
    generate_with_quality_loop C context true selected_model =
      generate_with_quality_loop C context false selected_model ∧
    r.thai_content = none ∧ r.thai_layout = none := by
  have hnone := go_false_thai_none C context selected_model
    (MAX_QUALITY_ITERATIONS - 1) 1 none r
    (by simpa [generate_with_quality_loop] using hr)
  refine ⟨rfl, rfl, rfl, rfl, rfl, rfl, ?_, hnone.1, hnone.2⟩
  unfold generate_with_quality_loop
  exact go_thai_ignored C context selected_model ht
    (MAX_QUALITY_ITERATIONS - 1) 1 none

theorem analysis_translation_failures_degrade_witness :
    (attachAnalysis (.error "boom") d0).analysis = none ∧
    (attachAnalysis (.error "boom") d0).content = d0.content ∧
    (attachAnalysis (.error "boom") d0).quality_score = d0.quality_score ∧
    (attachAnalysis (.error "boom") d0).iterations = d0.iterations ∧
    (attachAnalysis (.error "boom") d0).layout = d0.layout ∧
    (attachAnalysis (.error "boom") d0).thai_content = d0.thai_content ∧
    generate_with_quality_loop stubAllLow ctx0 true "gpt-finetune" =
      generate_with_quality_loop stubAllLow ctx0 false "gpt-finetune" ∧
    LoopResult.thai_content
      ⟨"Draft body.", ⟨[], []⟩, mkRat 3 10, 3, [], none, none⟩ = none ∧
    LoopResult.thai_layout
      ⟨"Draft body.", ⟨[], []⟩, mkRat 3 10, 3, [], none, none⟩ = none :=
  analysis_translation_failures_degrade stubAllLow ctx0 "gpt-finetune" "boom" d0
    ⟨"Draft body.", ⟨[], []⟩, mkRat 3 10, 3, [], none, none⟩
    (fun _ _ _ => True.intro) (by decide)

/-- Claim C9 counterexample: parse_seo_keywords does not remove duplicate
entries: "a, a" parses to two copies of "a", not to a deduplicated
list. -/
theorem parse_seo_keywords_keeps_duplicates :
    parse_seo_keywords (some ("a, a".toList)) = ["a".toList, "a".toList] ∧
    (parse_seo_keywords (some ("a, a".toList))).count "a".toList = 2 := by
  decide

/-- Claim C9 (amended): parse_seo_keywords returns the comma-separated
items trimmed of surrounding whitespace, in order, with blank entries
removed but duplicate entries kept; in particular
parse_seo_keywords "a, b,, c " = ["a","b","c"], and re-parsing the
", "-join of any output yields the same list (round-trip). -/
theorem parse_seo_keywords_parses_trimmed_ordered (s : List Char) :
    parse_seo_keywords (some ("a, b,, c ".toList)) =
      ["a".toList, "b".toList, "c".toList] ∧
    (parse_seo_keywords (some s)).all (fun k => !k.isEmpty) = true ∧
    (parse_seo_keywords (some s)).all (fun k => pyStrip k == k) = true ∧
    List.Sublist (parse_seo_keywords (some s)) ((pySplit ',' s).map pyStrip) ∧
    parse_seo_keywords (some (pyJoinCommaSpace (parse_seo_keywords (some s)))) =
      parse_seo_keywords (some s) := by
  refine ⟨by decide, ?_, ?_, ?_, parse_seo_keywords_roundtrip s⟩
  · rw [List.all_eq_true]
    intro k hk
    have h := (parse_seo_keywords_mem s k hk).1
    simpa using h
  · rw [List.all_eq_true]
    intro k hk
    have h := (parse_seo_keywords_mem s k hk).2.2
    simpa using h
  · simp only [parse_seo_keywords]
    by_cases hs : s = []
    · simp [hs]
    · rw [if_neg hs]
      exact List.filter_sublist _

/-- Claim C10: a scorer backend reply that is a valid JSON object lacking
the score key (or the feedback and suggestions keys) does not make
evaluate_article_quality fail: the missing keys default via dict.get, so
the reply is scored 0.0 (with feedback "" and suggestions [] when those
keys are also absent), which lies below QUALITY_THRESHOLD — a score-less
reply is treated as lowest quality, not as a scoring failure. -/
theorem quality_checker_missing_keys_default (fb : Option String)
    (sg : Option (List String)) :
    QualityCheckerService.evaluate_article_quality (.ok ⟨none, fb, sg⟩) =
      .ok ⟨0, fb.getD "", sg.getD []⟩ ∧
    QualityCheckerService.evaluate_article_quality (.ok ⟨none, none, none⟩) =
      .ok ⟨0, "", []⟩ ∧
    (0 : ℚ) < QUALITY_THRESHOLD :=
  ⟨rfl, rfl, by decide⟩

end Jeno
